import Mathlib

/-!
Verification of the rx-utils core against its specification.

The two source files, `src/LogServiceBase.ts` (containing `CacheService`)
and `src/StreamService.ts`, are shallowly embedded below.  The rxjs
cooperative single-threaded scheduling model is embedded as explicit
state passing: every public operation is an atomic state transformer
(a `get` call together with the caller's immediate subscription is one
atomic step, matching the cooperative model of the specification), and
the asynchronous resolution or rejection of an in-flight fetch is a
separate transition on the same state.
-/

/-- Association-list model of the TS `Map` (and of the default
`CacheServiceStorage`): lookup of a key. -/
def alookup {β : Type} : List (String × β) → String → Option β
  | [], _ => none
  | (k, b) :: rest, key => if k = key then some b else alookup rest key

/-- Association-list model of `Map.delete`. -/
def aerase {β : Type} : List (String × β) → String → List (String × β)
  | [], _ => []
  | (k, b) :: rest, key =>
      if k = key then aerase rest key else (k, b) :: aerase rest key

/-- Association-list model of `Map.set`: the key is bound exactly once
afterwards. -/
def aset {β : Type} (m : List (String × β)) (key : String) (b : β) :
    List (String × β) :=
  (key, b) :: aerase m key

theorem alookup_aerase_self {β : Type} (m : List (String × β)) (key : String) :
    alookup (aerase m key) key = none := by
  induction m with
  | nil => rfl
  | cons kb rest ih =>
    obtain ⟨k, b⟩ := kb
    by_cases h : k = key
    · simp [aerase, h, ih]
    · simp [aerase, alookup, h, ih]

theorem alookup_aerase_ne {β : Type} (m : List (String × β)) (k2 key : String)
    (h : k2 ≠ key) : alookup (aerase m k2) key = alookup m key := by
  induction m with
  | nil => rfl
  | cons kb rest ih =>
    obtain ⟨k, b⟩ := kb
    by_cases hk : k = k2
    · subst hk
      have hne : k ≠ key := h
      simp [aerase, alookup, hne, ih]
    · simp [aerase, alookup, hk, ih]

theorem alookup_aset_self {β : Type} (m : List (String × β)) (key : String)
    (b : β) : alookup (aset m key b) key = some b := by
  simp [aset, alookup]

theorem alookup_aset_ne {β : Type} (m : List (String × β)) (k2 key : String)
    (b : β) (h : k2 ≠ key) : alookup (aset m k2 b) key = alookup m key := by
  simp [aset, alookup, h, alookup_aerase_ne m k2 key h]

/-- The TS interface `CacheContent`: a stored value with the time it was
set. -/
structure CacheContent (V : Type) where
  timestamp : Nat
  value : V
  deriving DecidableEq

/-- The cache storage: the default `Map<string, CacheContent>`. -/
abbrev CacheMap (V : Type) := List (String × CacheContent V)

/-- `DEFAULT_LIFE_TIME` from LogServiceBase.ts: 300000 (5 minutes). -/
def DEFAULT_LIFE_TIME : Nat := 300000

/-- `CacheService.validCachedValue`: returns the entry for `key` when it
is present and not expired; when the entry has expired
(`timestamp + maxLifeTime < now`) it is deleted and `none` is returned.
The updated store is returned alongside. -/
def validCachedValue {V : Type} (cache : CacheMap V) (key : String)
    (maxLifeTime now : Nat) : Option (CacheContent V) × CacheMap V :=
  match alookup cache key with
  | some cached =>
      if cached.timestamp + maxLifeTime < now then (none, aerase cache key)
      else (some cached, cache)
  | none => (none, cache)

/-- `CacheService.collect`: deletes the entry for `key` when
`timestamp + maxLifeTime < now`; otherwise the store is untouched. -/
def collect {V : Type} (cache : CacheMap V) (key : String)
    (maxLifeTime now : Nat) : CacheMap V :=
  match alookup cache key with
  | some cached =>
      if cached.timestamp + maxLifeTime < now then aerase cache key else cache
  | none => cache

/-- `CacheService.set`: stores the value under `key` stamped with the
current time. -/
def cacheServiceSet {V : Type} (cache : CacheMap V) (key : String) (v : V)
    (now : Nat) : CacheMap V :=
  aset cache key ⟨now, v⟩

/-- `CacheService.has`: membership test ignoring expiry. -/
def cacheServiceHas {V : Type} (cache : CacheMap V) (key : String) : Bool :=
  (alookup cache key).isSome

/-- One in-flight `Subject`: the caller whose `get` started the fetch,
plus the callers that joined by subscribing to the subject. -/
structure Flight where
  owner : Nat
  subs : List Nat
  deriving DecidableEq

/-- The error taxonomy of the cache: the `throwError` for a `get` with
no fallback, and a failure of the underlying fetch. -/
inductive CacheError (E : Type) where
  | missingFallback
  | fetchFailure (e : E)
  deriving DecidableEq

/-- What a caller of `get` eventually observes on its observable. -/
inductive Outcome (V E : Type) where
  | success (v : V)
  | failure (err : CacheError E)
  deriving DecidableEq

/-- The whole state of a `CacheService`: the value store, the
`inFlightObservables` map, the number of times a fallback fetch has been
started, and what each caller has observed so far. -/
structure CacheState (V E : Type) where
  cache : CacheMap V
  inFlight : List (String × Flight)
  fetchCount : Nat
  observed : Nat → Option (Outcome V E)

/-- Record that one caller observed an outcome. -/
def updateObs {V E : Type} (obs : Nat → Option (Outcome V E)) (caller : Nat)
    (o : Outcome V E) : Nat → Option (Outcome V E) :=
  fun c => if c = caller then some o else obs c

/-- Record that each listed caller observed the same outcome. -/
def notifyAll {V E : Type} (obs : Nat → Option (Outcome V E)) (cs : List Nat)
    (o : Outcome V E) : Nat → Option (Outcome V E) :=
  fun c => if c ∈ cs then some o else obs c

/-- `CacheService.get` followed by the caller's immediate subscription,
as one cooperative step.  A valid cached entry is observed at once; a
cache miss with an in-flight subject joins it; a miss with a fallback
registers a new in-flight subject and starts the fetch (the `defer`
body runs at subscription: `fallback()` is built, the subject is
registered, then the fetch observable is subscribed); a miss with no
fallback yields the missing-fallback error. -/
def getSub {V E : Type} (s : CacheState V E) (key : String)
    (hasFallback : Bool) (maxLifeTime now caller : Nat) : CacheState V E :=
  match validCachedValue s.cache key maxLifeTime now with
  | (some cached, cache1) =>
      { s with cache := cache1,
               observed := updateObs s.observed caller
                 (Outcome.success cached.value) }
  | (none, cache1) =>
      match alookup s.inFlight key with
      | some f =>
          { s with cache := cache1,
                   inFlight := aset s.inFlight key
                     ⟨f.owner, f.subs ++ [caller]⟩ }
      | none =>
          if hasFallback then
            { s with cache := cache1,
                     inFlight := aset s.inFlight key ⟨caller, []⟩,
                     fetchCount := s.fetchCount + 1 }
          else
            { s with cache := cache1,
                     observed := updateObs s.observed caller
                       (Outcome.failure CacheError.missingFallback) }

/-- The in-flight fetch for `key` succeeds with `v`: the `tap` stores
the value, the subject broadcasts it to every joined caller and to the
owner, and the subject is removed from the in-flight map. -/
def resolveFetch {V E : Type} (s : CacheState V E) (key : String) (v : V)
    (now : Nat) : CacheState V E :=
  match alookup s.inFlight key with
  | some f =>
      { s with cache := cacheServiceSet s.cache key v now,
               inFlight := aerase s.inFlight key,
               observed := notifyAll s.observed (f.owner :: f.subs)
                 (Outcome.success v) }
  | none => s

/-- The in-flight fetch for `key` fails with `e`: the `catchError`
broadcasts the error to every joined caller, rethrows it to the owner,
and removes the subject; nothing is cached. -/
def rejectFetch {V E : Type} (s : CacheState V E) (key : String) (e : E) :
    CacheState V E :=
  match alookup s.inFlight key with
  | some f =>
      { s with inFlight := aerase s.inFlight key,
               observed := notifyAll s.observed (f.owner :: f.subs)
                 (Outcome.failure (CacheError.fetchFailure e)) }
  | none => s

/-- A sequence of `get`-with-fallback calls for the same key, each by
caller `c` at time `t`. -/
def runGets {V E : Type} (key : String) (maxLifeTime : Nat) :
    CacheState V E → List (Nat × Nat) → CacheState V E
  | s, [] => s
  | s, (c, t) :: rest =>
      runGets key maxLifeTime (getSub s key true maxLifeTime t c) rest

/-- When a key has no entry, `validCachedValue` is a no-op miss. -/
theorem vcv_of_none {V : Type} (cache : CacheMap V) (key : String)
    (ttl now : Nat) (h : alookup cache key = none) :
    validCachedValue cache key ttl now = (none, cache) := by
  simp [validCachedValue, h]

/-- After a miss of `validCachedValue`, the key is absent from the
returned store. -/
theorem vcv_next_lookup {V : Type} (cache : CacheMap V) (key : String)
    (ttl now : Nat) (h : (validCachedValue cache key ttl now).1 = none) :
    alookup (validCachedValue cache key ttl now).2 key = none := by
  cases hc : alookup cache key with
  | none => simp [validCachedValue, hc]
  | some c =>
    by_cases he : c.timestamp + ttl < now
    · simp [validCachedValue, hc, he, alookup_aerase_self]
    · exfalso
      simp [validCachedValue, hc, he] at h

/-- `validCachedValue` either leaves the store alone or deletes exactly
the key it was asked about. -/
theorem vcv_snd_cases {V : Type} (cache : CacheMap V) (key : String)
    (ttl now : Nat) :
    (validCachedValue cache key ttl now).2 = cache
    ∨ (validCachedValue cache key ttl now).2 = aerase cache key := by
  cases hc : alookup cache key with
  | none => left; simp [validCachedValue, hc]
  | some c =>
    by_cases he : c.timestamp + ttl < now
    · right; simp [validCachedValue, hc, he]
    · left; simp [validCachedValue, hc, he]

/-- C2 (amended): with an entry stored at `t0` and ttl `T`, a `get` at
any time `now ≤ t0 + T` — in particular at `t0 + T - 1` and also at
exactly `t0 + T` — yields the stored value with no fallback invocation
and no store change; only at `now > t0 + T` is the entry expired: then
a `get` with a fallback starts the fetch, and a `get` without one makes
the caller observe the missing-fallback error. -/
theorem expiry_boundary {V E : Type} (s : CacheState V E) (k : String)
    (t0 T now caller : Nat) (v : V) (b : Bool)
    (hentry : alookup s.cache k = some ⟨t0, v⟩)
    (hnf : alookup s.inFlight k = none) :
    (now ≤ t0 + T →
      (getSub s k b T now caller).observed caller
          = some (Outcome.success v)
      ∧ (getSub s k b T now caller).fetchCount = s.fetchCount
      ∧ (getSub s k b T now caller).cache = s.cache)
    ∧ (t0 + T < now →
      (getSub s k true T now caller).fetchCount = s.fetchCount + 1
      ∧ (getSub s k false T now caller).observed caller
          = some (Outcome.failure CacheError.missingFallback)) := by
  constructor
  · intro h
    have hnot : ¬ (t0 + T < now) := Nat.not_lt.mpr h
    simp [getSub, validCachedValue, hentry, hnot, updateObs]
  · intro h
    constructor
    · simp [getSub, validCachedValue, hentry, h, hnf]
    · simp [getSub, validCachedValue, hentry, h, hnf, updateObs]

/-- A concrete cache state with one entry stored at time 0. -/
def cs0 : CacheState Nat Nat :=
  { cache := [("k", ⟨0, 7⟩)], inFlight := [], fetchCount := 0,
    observed := fun _ => none }

theorem expiry_boundary_w :
    (getSub cs0 "k" true 5 4 1).observed 1 = some (Outcome.success 7)
    ∧ (getSub cs0 "k" true 5 6 1).fetchCount = 1 :=
  ⟨((expiry_boundary cs0 "k" 0 5 4 1 7 true rfl rfl).1 (by decide)).1,
   ((expiry_boundary cs0 "k" 0 5 6 1 7 true rfl rfl).2 (by decide)).1⟩

/-- C2, counterexample to the spec's boundary: at exactly `t0 + T`
(here `t0 = 0`, `T = 5`, `now = 5`) a `get` with a fallback supplied
still yields the cached value and does not invoke the fallback, where
the claim says the entry is treated as expired and the fallback is
invoked. -/
theorem expiry_boundary_cex :
    (getSub cs0 "k" true 5 5 1).observed 1 = some (Outcome.success 7)
    ∧ (getSub cs0 "k" true 5 5 1).fetchCount = 0 := by
  constructor <;> decide

/-- C3 (amended): `collect` deletes the entry iff
`storedAt + ttl < now`, i.e. iff the age `now - storedAt` strictly
exceeds the ttl; otherwise the store is untouched, and `collect` on an
absent key is a no-op. -/
theorem collect_char {V : Type} (m : CacheMap V) (k : String) (T now : Nat) :
    (∀ c : CacheContent V, alookup m k = some c →
        collect m k T now
          = if c.timestamp + T < now then aerase m k else m)
    ∧ (alookup m k = none → collect m k T now = m) := by
  constructor
  · intro c hc
    simp [collect, hc]
  · intro hc
    simp [collect, hc]

/-- A concrete one-entry store, stored at time 0. -/
def m0 : CacheMap Nat := [("k", ⟨0, 5⟩)]

theorem collect_char_w :
    collect m0 "k" 5 6 = if 0 + 5 < 6 then aerase m0 "k" else m0 :=
  (collect_char m0 "k" 5 6).1 ⟨0, 5⟩ rfl

/-- C3, counterexample to the spec's boundary: with `storedAt = 0`,
`ttl = 5` and `now = 5` the age equals the ttl, so the claim says the
entry is deleted; the code keeps it. -/
theorem collect_cex :
    collect m0 "k" 5 5 = m0
    ∧ alookup (collect m0 "k" 5 5) "k" = some ⟨0, 5⟩ := by
  constructor <;> decide

/-- C8: a `get` without a fallback on a key with no valid entry and no
in-flight subject makes the caller observe the missing-fallback error,
leaves the in-flight map and the fetch count unchanged, and changes the
value store at most by deleting the expired entry of that key. -/
theorem missing_fallback_err {V E : Type} (s : CacheState V E) (k : String)
    (ttl now caller : Nat)
    (hv : (validCachedValue s.cache k ttl now).1 = none)
    (hf : alookup s.inFlight k = none) :
    (getSub s k false ttl now caller).observed caller
      = some (Outcome.failure CacheError.missingFallback)
    ∧ (getSub s k false ttl now caller).inFlight = s.inFlight
    ∧ (getSub s k false ttl now caller).fetchCount = s.fetchCount
    ∧ (getSub s k false ttl now caller).cache
        = (validCachedValue s.cache k ttl now).2
    ∧ ((validCachedValue s.cache k ttl now).2 = s.cache
        ∨ (validCachedValue s.cache k ttl now).2 = aerase s.cache k) := by
  rcases hval : validCachedValue s.cache k ttl now with ⟨o, cache1⟩
  rw [hval] at hv
  simp only at hv
  subst hv
  refine ⟨?_, ?_, ?_, ?_, ?_⟩
  · simp [getSub, hval, hf, updateObs]
  · simp [getSub, hval, hf]
  · simp [getSub, hval, hf]
  · simp [getSub, hval, hf]
  · have := vcv_snd_cases s.cache k ttl now
    rw [hval] at this
    exact this

theorem missing_fallback_err_w :
    (getSub cs0 "k" false 5 10 3).observed 3
      = some (Outcome.failure CacheError.missingFallback)
    ∧ (getSub cs0 "k" false 5 10 3).inFlight = cs0.inFlight :=
  ⟨(missing_fallback_err cs0 "k" 5 10 3 (by decide) rfl).1,
   (missing_fallback_err cs0 "k" 5 10 3 (by decide) rfl).2.1⟩

/-- While a key misses the cache and its subject is in flight, a run of
`get` calls for it changes nothing but the subject's subscriber list:
no new fetch is started, the store and the observations are untouched,
and every caller of the run is appended to the subscribers. -/
theorem join_run {V E : Type} (key : String) (ttl : Nat)
    (l : List (Nat × Nat)) :
    ∀ (s : CacheState V E) (f : Flight),
      alookup s.cache key = none → alookup s.inFlight key = some f →
      (runGets key ttl s l).cache = s.cache
      ∧ (runGets key ttl s l).fetchCount = s.fetchCount
      ∧ (runGets key ttl s l).observed = s.observed
      ∧ alookup (runGets key ttl s l).inFlight key
          = some (Flight.mk f.owner (f.subs ++ l.map Prod.fst)) := by
  induction l with
  | nil =>
    intro s f hc hf
    simp [runGets, hf]
  | cons ct rest ih =>
    obtain ⟨c, t⟩ := ct
    intro s f hc hf
    have hstep : getSub s key true ttl t c
        = { s with inFlight := aset s.inFlight key (Flight.mk f.owner (f.subs ++ [c])) } := by
      simp [getSub, validCachedValue, hc, hf]
    have hrun : runGets key ttl s ((c, t) :: rest)
        = runGets key ttl (getSub s key true ttl t c) rest := rfl
    rw [hrun, hstep]
    obtain ⟨h1, h2, h3, h4⟩ :=
      ih { s with inFlight := aset s.inFlight key (Flight.mk f.owner (f.subs ++ [c])) }
        (Flight.mk f.owner (f.subs ++ [c])) hc (alookup_aset_self _ _ _)
    refine ⟨by simpa using h1, by simpa using h2, by simpa using h3, ?_⟩
    rw [h4]
    simp

/-- C1: single flight.  Starting from a state with no valid cached
entry for `k` and nothing in flight, a first `get(k, fallback)` call
followed by any number of further `get(k, fallback)` calls (each at an
arbitrary time) issued before the fetch settles starts the fallback
fetch exactly once; when the fetch then resolves with `v` every caller
observes the same success `v`, and when it fails with `e` every caller
observes the same failure `e`. -/
theorem single_flight {V E : Type} (s0 : CacheState V E) (k : String)
    (ttl t1 c1 : Nat) (rest : List (Nat × Nat)) (v : V) (e : E) (tr : Nat)
    (hv : (validCachedValue s0.cache k ttl t1).1 = none)
    (hf : alookup s0.inFlight k = none) :
    (runGets k ttl (getSub s0 k true ttl t1 c1) rest).fetchCount
        = s0.fetchCount + 1
    ∧ (∀ c ∈ c1 :: rest.map Prod.fst,
        (resolveFetch (runGets k ttl (getSub s0 k true ttl t1 c1) rest)
            k v tr).observed c
          = some (Outcome.success v))
    ∧ (∀ c ∈ c1 :: rest.map Prod.fst,
        (rejectFetch (runGets k ttl (getSub s0 k true ttl t1 c1) rest)
            k e).observed c
          = some (Outcome.failure (CacheError.fetchFailure e))) := by
  rcases hval : validCachedValue s0.cache k ttl t1 with ⟨o, cache1⟩
  have ho : o = none := by rw [hval] at hv; exact hv
  subst ho
  have hs1 : getSub s0 k true ttl t1 c1
      = { s0 with cache := cache1,
                  inFlight := aset s0.inFlight k (Flight.mk c1 []),
                  fetchCount := s0.fetchCount + 1 } := by
    simp [getSub, hval, hf]
  have hc1 : alookup cache1 k = none := by
    have := vcv_next_lookup s0.cache k ttl t1 hv
    rw [hval] at this
    exact this
  rw [hs1]
  obtain ⟨h1, h2, h3, h4⟩ :=
    join_run k ttl rest
      { s0 with cache := cache1,
                inFlight := aset s0.inFlight k (Flight.mk c1 []),
                fetchCount := s0.fetchCount + 1 }
      (Flight.mk c1 []) hc1 (alookup_aset_self _ _ _)
  refine ⟨by simpa using h2, ?_, ?_⟩
  · intro c hc
    simp only [resolveFetch, h4, notifyAll, h3]
    simp [List.mem_cons] at hc
    rcases hc with hc | hc <;> simp [hc]
  · intro c hc
    simp only [rejectFetch, h4, notifyAll, h3]
    simp [List.mem_cons] at hc
    rcases hc with hc | hc <;> simp [hc]

/-- The empty cache state. -/
def cs1 : CacheState Nat Nat :=
  { cache := [], inFlight := [], fetchCount := 0, observed := fun _ => none }

theorem single_flight_w :
    (runGets "k" 300000 (getSub cs1 "k" true 300000 0 1) [(2, 10)]).fetchCount
        = 1
    ∧ (resolveFetch
          (runGets "k" 300000 (getSub cs1 "k" true 300000 0 1) [(2, 10)])
          "k" 7 50).observed 2
        = some (Outcome.success 7) := by
  have h := single_flight cs1 "k" 300000 0 1 [(2, 10)] 7 0 50 rfl rfl
  exact ⟨h.1, h.2.1 2 (by decide)⟩

/-- The operations that can touch a `CacheService`'s state: the public
API (`get` with its subscription, `set`, `has`, `collect`) and the two
internal transitions that settle an in-flight fetch. -/
inductive CacheOp (V E : Type) where
  | opGet (key : String) (hasFallback : Bool) (maxLifeTime now caller : Nat)
  | opSet (key : String) (v : V) (now : Nat)
  | opHas (key : String)
  | opCollect (key : String) (maxLifeTime now : Nat)
  | opResolve (key : String) (v : V) (now : Nat)
  | opReject (key : String) (e : E)
  deriving DecidableEq

/-- One step of the cache service. -/
def stepCache {V E : Type} (s : CacheState V E) : CacheOp V E → CacheState V E
  | .opGet key hf ttl now caller => getSub s key hf ttl now caller
  | .opSet key v now => { s with cache := cacheServiceSet s.cache key v now }
  | .opHas _ => s
  | .opCollect key ttl now => { s with cache := collect s.cache key ttl now }
  | .opResolve key v now => resolveFetch s key v now
  | .opReject key e => rejectFetch s key e

/-- Whatever branch `get` takes, the value store it leaves behind is the
one `validCachedValue` produced. -/
theorem getSub_cache {V E : Type} (s : CacheState V E) (key : String)
    (hf : Bool) (ttl now caller : Nat) :
    (getSub s key hf ttl now caller).cache
      = (validCachedValue s.cache key ttl now).2 := by
  rcases hval : validCachedValue s.cache key ttl now with ⟨o, cache1⟩
  cases o with
  | some c => simp [getSub, hval]
  | none =>
    cases hfl : alookup s.inFlight key with
    | some f => simp [getSub, hval, hfl]
    | none => cases hf <;> simp [getSub, hval, hfl]

/-- `collect` either leaves the store alone or deletes exactly the key
it was asked about. -/
theorem collect_cases {V : Type} (cache : CacheMap V) (key : String)
    (ttl now : Nat) :
    collect cache key ttl now = cache
    ∨ collect cache key ttl now = aerase cache key := by
  cases hc : alookup cache key with
  | none => left; simp [collect, hc]
  | some c =>
    by_cases he : c.timestamp + ttl < now
    · right; simp [collect, hc, he]
    · left; simp [collect, hc, he]

/-- C7 (amended): an entry for `k` disappears from the value store only
through `collect k` when the entry has expired, or through a `get` on
`k` itself when the entry has expired (`validCachedValue` deletes it);
`set`, `has`, fetch resolution and fetch rejection never delete an
entry, and operations on other keys never touch it. -/
theorem entry_removal_char {V E : Type} (s : CacheState V E)
    (op : CacheOp V E) (k : String) (c : CacheContent V)
    (h1 : alookup s.cache k = some c)
    (h2 : alookup (stepCache s op).cache k = none) :
    (∃ ttl now, op = CacheOp.opCollect k ttl now ∧ c.timestamp + ttl < now)
    ∨ (∃ hf ttl now caller, op = CacheOp.opGet k hf ttl now caller
        ∧ c.timestamp + ttl < now) := by
  cases op with
  | opGet key2 hf ttl now caller =>
    rw [stepCache, getSub_cache] at h2
    by_cases hk : key2 = k
    · subst hk
      by_cases hexp : c.timestamp + ttl < now
      · exact Or.inr ⟨hf, ttl, now, caller, rfl, hexp⟩
      · rw [show (validCachedValue s.cache key2 ttl now).2 = s.cache by
              simp [validCachedValue, h1, hexp]] at h2
        exact absurd h2 (by simp [h1])
    · rcases vcv_snd_cases s.cache key2 ttl now with hc | hc <;>
        rw [hc] at h2
      · exact absurd h2 (by simp [h1])
      · rw [alookup_aerase_ne s.cache key2 k hk] at h2
        exact absurd h2 (by simp [h1])
  | opSet key2 v now =>
    by_cases hk : key2 = k
    · subst hk
      simp [stepCache, cacheServiceSet, alookup_aset_self] at h2
    · rw [show (stepCache s (CacheOp.opSet key2 v now)).cache
            = aset s.cache key2 (CacheContent.mk now v) from rfl,
          alookup_aset_ne s.cache key2 k _ hk] at h2
      exact absurd h2 (by simp [h1])
  | opHas key2 =>
    rw [show (stepCache s (CacheOp.opHas key2)).cache = s.cache from rfl]
      at h2
    exact absurd h2 (by simp [h1])
  | opCollect key2 ttl now =>
    rw [show (stepCache s (CacheOp.opCollect key2 ttl now)).cache
          = collect s.cache key2 ttl now from rfl] at h2
    by_cases hk : key2 = k
    · subst hk
      by_cases hexp : c.timestamp + ttl < now
      · exact Or.inl ⟨ttl, now, rfl, hexp⟩
      · rw [show collect s.cache key2 ttl now = s.cache by
              simp [collect, h1, hexp]] at h2
        exact absurd h2 (by simp [h1])
    · rcases collect_cases s.cache key2 ttl now with hc | hc <;>
        rw [hc] at h2
      · exact absurd h2 (by simp [h1])
      · rw [alookup_aerase_ne s.cache key2 k hk] at h2
        exact absurd h2 (by simp [h1])
  | opResolve key2 v now =>
    rw [show stepCache s (CacheOp.opResolve key2 v now)
          = resolveFetch s key2 v now from rfl] at h2
    cases hfl : alookup s.inFlight key2 with
    | none =>
      rw [show (resolveFetch s key2 v now).cache = s.cache by
            simp [resolveFetch, hfl]] at h2
      exact absurd h2 (by simp [h1])
    | some f =>
      rw [show (resolveFetch s key2 v now).cache
            = cacheServiceSet s.cache key2 v now by
            simp [resolveFetch, hfl]] at h2
      by_cases hk : key2 = k
      · subst hk
        simp [cacheServiceSet, alookup_aset_self] at h2
      · rw [cacheServiceSet, alookup_aset_ne s.cache key2 k _ hk] at h2
        exact absurd h2 (by simp [h1])
  | opReject key2 e =>
    rw [show stepCache s (CacheOp.opReject key2 e)
          = rejectFetch s key2 e from rfl] at h2
    cases hfl : alookup s.inFlight key2 with
    | none =>
      rw [show (rejectFetch s key2 e).cache = s.cache by
            simp [rejectFetch, hfl]] at h2
      exact absurd h2 (by simp [h1])
    | some f =>
      rw [show (rejectFetch s key2 e).cache = s.cache by
            simp [rejectFetch, hfl]] at h2
      exact absurd h2 (by simp [h1])

theorem entry_removal_char_w :
    (∃ ttl now, (CacheOp.opGet "k" false 5 10 1 : CacheOp Nat Nat)
        = CacheOp.opCollect "k" ttl now ∧ 0 + ttl < now)
    ∨ (∃ hf ttl now caller, (CacheOp.opGet "k" false 5 10 1 : CacheOp Nat Nat)
        = CacheOp.opGet "k" hf ttl now caller ∧ 0 + ttl < now) :=
  entry_removal_char cs0 (CacheOp.opGet "k" false 5 10 1) "k"
    (CacheContent.mk 0 7) rfl (by decide)

/-- C7, counterexample: a plain `get` call (here with no fallback) on a
key whose entry has expired deletes that entry from the store, though
the claim says no `get` call deletes an entry. -/
theorem get_deletes_cex :
    alookup cs0.cache "k" = some (CacheContent.mk 0 7)
    ∧ alookup (getSub cs0 "k" false 5 10 1).cache "k" = none := by
  constructor <;> decide

/-- One registered stream handler of `StreamService`: the throttle
window it was registered with, and the refresh requests pushed onto its
`update$` subject so far (each with the time it was pushed). -/
structure StreamHandler (α : Type) where
  window : Nat
  requests : List (Nat × α)
  deriving DecidableEq

/-- The state of a `StreamService`: its `streams` map. -/
structure StreamState (α : Type) where
  streams : List (String × StreamHandler α)
  deriving DecidableEq

/-- The error thrown by `registerStream$` on a duplicate key. -/
inductive RegErr where
  | duplicateKey
  deriving DecidableEq

/-- `StreamService.registerStream$`: throws on a key that already has a
live handler (leaving the map untouched), otherwise installs a fresh
handler with the given throttle window. -/
def registerStream {α : Type} (s : StreamState α) (key : String)
    (window : Nat) : StreamState α × Except RegErr Unit :=
  match alookup s.streams key with
  | some _ => (s, Except.error RegErr.duplicateKey)
  | none =>
      (StreamState.mk (aset s.streams key (StreamHandler.mk window [])),
       Except.ok ())

/-- `StreamService.applyUpdate`: pushes the payload onto the handler's
`update$` subject; a no-op when the key is unknown. -/
def applyUpdate {α : Type} (s : StreamState α) (key : String) (payload : α)
    (now : Nat) : StreamState α :=
  match alookup s.streams key with
  | some h =>
      StreamState.mk (aset s.streams key
        (StreamHandler.mk h.window (h.requests ++ [(now, payload)])))
  | none => s

/-- The shape of what `applyUpdate$` returns: `of(true)` for an unknown
key, and otherwise the race between the stream's next emission and the
`waitFor` timer. -/
inductive UpdNotify where
  | immediateUpdated
  | racing (waitFor : Nat)
  deriving DecidableEq

/-- `StreamService.applyUpdate$`: pushes the update and returns the
race, except that an unknown key resolves immediately to `true` without
pushing anything. -/
def applyUpdateRace {α : Type} (s : StreamState α) (key : String)
    (payload : α) (waitFor now : Nat) : StreamState α × UpdNotify :=
  match alookup s.streams key with
  | some h =>
      (StreamState.mk (aset s.streams key
        (StreamHandler.mk h.window (h.requests ++ [(now, payload)]))),
       UpdNotify.racing waitFor)
  | none => (s, UpdNotify.immediateUpdated)

/-- C4: re-registering a key that already has a live handler fails with
the duplicate-key error and leaves the registry unchanged: the original
handler for the key is still registered as it was. -/
theorem duplicate_registration {α : Type} (s : StreamState α) (k : String)
    (w : Nat) (h0 : StreamHandler α)
    (h : alookup s.streams k = some h0) :
    registerStream s k w = (s, Except.error RegErr.duplicateKey)
    ∧ alookup (registerStream s k w).1.streams k = some h0 := by
  constructor
  · simp [registerStream, h]
  · simp [registerStream, h]

/-- A registry holding one handler, registered with window 1000. -/
def ss0 : StreamState Nat :=
  StreamState.mk [("x", StreamHandler.mk 1000 [])]

theorem duplicate_registration_w :
    registerStream ss0 "x" 500 = (ss0, Except.error RegErr.duplicateKey)
    ∧ alookup (registerStream ss0 "x" 500).1.streams "x"
        = some (StreamHandler.mk 1000 []) :=
  duplicate_registration ss0 "x" 500 (StreamHandler.mk 1000 []) rfl

/-- C9: `applyUpdate$` on an unknown key resolves immediately to the
updated outcome, pushes no refresh request (the registry is unchanged)
and does not enter the race with the `waitFor` timer. -/
theorem unknown_key_updated {α : Type} (s : StreamState α) (k : String)
    (p : α) (waitFor now : Nat)
    (h : alookup s.streams k = none) :
    applyUpdateRace s k p waitFor now = (s, UpdNotify.immediateUpdated) := by
  simp [applyUpdateRace, h]

theorem unknown_key_updated_w :
    applyUpdateRace (StreamState.mk [] : StreamState Nat) "x" 5 99 0
      = (StreamState.mk [], UpdNotify.immediateUpdated) :=
  unknown_key_updated (StreamState.mk []) "x" 5 99 0 rfl

/-- External events seen by one registered stream: a push onto its
`update$` subject (`upd`), or a subscription to the returned `stream$`
(`sub`).  Times are scheduler instants. -/
inductive StreamEv (α : Type) where
  | upd (t : Nat) (payload : α)
  | sub (t : Nat)
  deriving DecidableEq

/-- Whether an event is an update push. -/
def StreamEv.isUpd {α : Type} : StreamEv α → Bool
  | .upd _ _ => true
  | .sub _ => false

/-- The refresh requests the pipeline actually consumes.  `update$` is a
plain `Subject` and `shareReplay` only subscribes to the source at the
first subscription, so pushes arriving while the flag is `false` (no
subscriber yet) are discarded; from the first `sub` event on, pushes
reach the pipeline. -/
def consumed {α : Type} : Bool → List (StreamEv α) → List (Nat × α)
  | _, [] => []
  | true, .upd t p :: rest => (t, p) :: consumed true rest
  | false, .upd _ _ :: rest => consumed false rest
  | _, .sub _ :: rest => consumed true rest

/-- `throttleTime` with its default leading-edge config: the first
request opens a silence window of length `w` starting at its own time;
requests inside the window are discarded, and the first request at or
after the end of the window passes and opens a new window. -/
def throttleLeading {α : Type} (w : Nat) :
    Option Nat → List (Nat × α) → List (Nat × α)
  | _, [] => []
  | none, (t, p) :: rest => (t, p) :: throttleLeading w (some t) rest
  | some last, (t, p) :: rest =>
      if t < last + w then throttleLeading w (some last) rest
      else (t, p) :: throttleLeading w (some t) rest

/-- The requests for which `queryOnce` is invoked: the consumed
requests, leading-edge throttled. -/
def passedRequests {α : Type} (w : Nat) (evs : List (StreamEv α)) :
    List (Nat × α) :=
  throttleLeading w none (consumed false evs)

/-- The settled result of one `queryOnce` observable. -/
inductive FetchResult (V E : Type) where
  | ok (v : V)
  | err (e : E)
  deriving DecidableEq

/-- A notification on the stream's broadcast pipeline. -/
inductive StreamNote (V E : Type) where
  | value (v : V)
  | failed (e : E)
  deriving DecidableEq

/-- Whether a notification is a failure. -/
def StreamNote.isFailed {V E : Type} : StreamNote V E → Bool
  | .value _ => false
  | .failed _ => true

/-- The notifications of one inner `queryOnce(payload)` observable
before any error handling. -/
def innerNotes {V E : Type} : FetchResult V E → List (StreamNote V E)
  | .ok v => [StreamNote.value v]
  | .err e => [StreamNote.failed e]

/-- `catchError(() => EMPTY)` on an inner observable: notifications are
passed through up to the first failure, which is replaced by `EMPTY`
(no notification at all). -/
def catchEmpty {V E : Type} (l : List (StreamNote V E)) :
    List (StreamNote V E) :=
  l.takeWhile fun n => !n.isFailed

/-- `mergeMap` over the passed requests: the i-th passed request maps
to the i-th invocation of `queryOnce`, each inner observable wrapped in
`catchError(() => EMPTY)`.  `qO i p` is the settled result of the i-th
invocation on payload `p`. -/
def mergeQuery {V E α : Type} (qO : Nat → α → FetchResult V E) :
    Nat → List (Nat × α) → List (StreamNote V E)
  | _, [] => []
  | i, (_, p) :: rest =>
      catchEmpty (innerNotes (qO i p)) ++ mergeQuery qO (i + 1) rest

/-- Everything the broadcast channel of a registered stream emits for a
given event timeline: throttled consumed requests, merged through
`queryOnce` with its per-request error absorption. -/
def streamNotes {V E α : Type} (qO : Nat → α → FetchResult V E) (w : Nat)
    (evs : List (StreamEv α)) : List (StreamNote V E) :=
  mergeQuery qO 0 (passedRequests w evs)

theorem catchEmpty_all {V E : Type} (l : List (StreamNote V E)) :
    (catchEmpty l).all (fun n => !n.isFailed) = true := by
  induction l with
  | nil => rfl
  | cons a l ih =>
    cases h : a.isFailed with
    | true => simp [catchEmpty, List.takeWhile_cons, h]
    | false =>
      simp only [catchEmpty, List.takeWhile_cons, h] at ih ⊢
      simp [h, ih]

theorem mergeQuery_no_failure {V E α : Type}
    (qO : Nat → α → FetchResult V E) :
    ∀ (l : List (Nat × α)) (i : Nat),
      (mergeQuery qO i l).all (fun n => !n.isFailed) = true := by
  intro l
  induction l with
  | nil => intro i; rfl
  | cons tp rest ih =>
    intro i
    obtain ⟨t, p⟩ := tp
    simp [mergeQuery, List.all_append, catchEmpty_all, ih]

/-- C5: on a stream registered with throttle window 1000 and a live
subscription, refresh requests fired at times 0, 200 and 1100 pass
exactly the requests at 0 and 1100 on to `queryOnce`: at most two
invocations, none for the request at time 200, which is simply
discarded. -/
theorem throttled_refresh {α : Type} (s : StreamState α) (k : String)
    (p1 p2 p3 : α) (h : alookup s.streams k = none) :
    alookup (registerStream s k 1000).1.streams k
        = some (StreamHandler.mk 1000 [])
    ∧ passedRequests 1000
        [StreamEv.sub 0, StreamEv.upd 0 p1, StreamEv.upd 200 p2,
         StreamEv.upd 1100 p3]
        = [(0, p1), (1100, p3)]
    ∧ (passedRequests 1000
        [StreamEv.sub 0, StreamEv.upd 0 p1, StreamEv.upd 200 p2,
         StreamEv.upd 1100 p3]).length ≤ 2
    ∧ ∀ q ∈ passedRequests 1000
        [StreamEv.sub 0, StreamEv.upd 0 p1, StreamEv.upd 200 p2,
         StreamEv.upd 1100 p3], q.1 ≠ 200 := by
  have hpass : passedRequests 1000
      [StreamEv.sub 0, StreamEv.upd 0 p1, StreamEv.upd 200 p2,
       StreamEv.upd 1100 p3]
      = [(0, p1), (1100, p3)] := by
    simp [passedRequests, consumed, throttleLeading]
  refine ⟨?_, hpass, ?_, ?_⟩
  · simp [registerStream, h, alookup_aset_self]
  · rw [hpass]; simp
  · rw [hpass]
    intro q hq
    simp only [List.mem_cons, List.not_mem_nil, or_false] at hq
    rcases hq with hq | hq
    · subst hq; simp
    · subst hq; simp

theorem throttled_refresh_w :
    passedRequests 1000
      [StreamEv.sub 0, StreamEv.upd 0 (5 : Nat), StreamEv.upd 200 6,
       StreamEv.upd 1100 7]
      = [(0, 5), (1100, 7)] :=
  (throttled_refresh (StreamState.mk []) "x" 5 6 7 rfl).2.1

/-- The `queryOnce` of concrete scenario B: its first invocation fails,
every later invocation succeeds with 42. -/
def qOB : Nat → Unit → FetchResult Nat Nat :=
  fun i _ => if i = 0 then FetchResult.err 0 else FetchResult.ok 42

/-- The event timeline of concrete scenario B: a subscriber, a refresh
request at time 0 whose fetch fails, and a refresh request at time 1200
whose fetch succeeds. -/
def evsB : List (StreamEv Unit) :=
  [StreamEv.sub 0, StreamEv.upd 0 (), StreamEv.upd 1200 ()]

/-- C6: a `queryOnce` failure is absorbed.  For every `queryOnce`,
window and event timeline the broadcast channel carries no failure
notification at all — the failing request just produces no value — and
in scenario B, where the first fetch fails and the fetch at time 1200
succeeds with 42, the subscribers observe exactly the value 42. -/
theorem fetch_error_absorbed (α V E : Type) :
    (∀ (qO : Nat → α → FetchResult V E) (w : Nat)
        (evs : List (StreamEv α)),
      (streamNotes qO w evs).all (fun n => !n.isFailed) = true)
    ∧ streamNotes qOB 1000 evsB = [StreamNote.value 42] := by
  constructor
  · intro qO w evs
    exact mergeQuery_no_failure qO (passedRequests w evs) 0
  · decide

/-- C10: refresh requests pushed before the first subscription to the
stream's broadcast channel are discarded: the consumed request sequence,
the throttled requests handed to `queryOnce` and the emitted
notifications (hence the replay value) are the same as if the
pre-subscription pushes had never happened. -/
theorem pre_sub_discarded {α V E : Type} (qO : Nat → α → FetchResult V E)
    (w : Nat) (pre evs : List (StreamEv α))
    (h : ∀ e ∈ pre, e.isUpd = true) :
    consumed false (pre ++ evs) = consumed false evs
    ∧ passedRequests w (pre ++ evs) = passedRequests w evs
    ∧ streamNotes qO w (pre ++ evs) = streamNotes qO w evs := by
  have hc : ∀ pre2 : List (StreamEv α), (∀ e ∈ pre2, e.isUpd = true) →
      consumed false (pre2 ++ evs) = consumed false evs := by
    intro pre2
    induction pre2 with
    | nil => intro _; rfl
    | cons e pre2 ih =>
      intro h2
      cases e with
      | upd t p =>
        have hrest : consumed false (pre2 ++ evs) = consumed false evs :=
          ih fun x hx => h2 x (List.mem_cons_of_mem _ hx)
        simpa [consumed] using hrest
      | sub t =>
        have hbad := h2 (StreamEv.sub t) (List.mem_cons_self _ _)
        simp [StreamEv.isUpd] at hbad
  have hc0 := hc pre h
  exact ⟨hc0, by simp [passedRequests, hc0],
    by simp [streamNotes, passedRequests, hc0]⟩

/-- A `queryOnce` that always succeeds with 1, for the C10 witness. -/
def qOC : Nat → Unit → FetchResult Nat Nat :=
  fun _ _ => FetchResult.ok 1

theorem pre_sub_discarded_w :
    passedRequests 1000
        ([StreamEv.upd 0 ()] ++ [StreamEv.sub 1, StreamEv.upd 2 ()])
      = passedRequests 1000 [StreamEv.sub 1, StreamEv.upd 2 ()] :=
  (pre_sub_discarded qOC 1000 [StreamEv.upd 0 ()]
    [StreamEv.sub 1, StreamEv.upd 2 ()] (by decide)).2.1
